import Mathlib

/-!
Verification model of the File-Upload-Service repository.

Shallow embedding conventions:
* Rust `&str` / `String` values are modelled as `List Char` (`Str`), so that
  concatenation, prefix stripping and extension parsing are ordinary list
  operations; `str` injects Lean string literals.
* Byte payloads (`Bytes` in Rust) are modelled as `List Nat`.
* The SHA-256 fingerprint from the external `sha2` crate is abstracted as a
  function parameter `hash : Bytes → Str`; no claim depends on properties of
  the hash beyond determinism.
* The storage backends (src/storage/local.rs, src/storage/s3.rs) are modelled
  over a store that maps backend-native keys to byte payloads: the local
  backend keys the store by the full filesystem path `"uploads/" ++ key`
  (`LocalStorage.get_full_path` with `base_path = "uploads"`, see
  `init_storage`), the S3 backend keys it by the object key itself.
* Fallible external effects of the upload handler (fresh UUID, thumbnail
  rendering and temp-file read, database insert success) are supplied by an
  `UploadEnv` record; the handler itself (src/handlers.rs) is a pure function
  of config, backend, store, database rows and that environment.
* `u64` / `i64` sizes are modelled as `Nat`; no claim involves overflow or
  negative sizes.
-/

/-- Rust string slices, modelled as lists of characters. -/
abbrev Str := List Char

/-- Inject a Lean string literal into the `Str` model. -/
def str (s : String) : Str := s.data

/-- Raw byte payloads (`bytes::Bytes`). -/
abbrev Bytes := List Nat

/-! ### src/utils.rs -/

/-- Split a character list at every occurrence of `sep`
(helper for the Unix path semantics of `std::path::Path`). -/
def splitOnChar (sep : Char) : Str → List Str
  | [] => [[]]
  | c :: rest =>
    let r := splitOnChar sep rest
    if c = sep then [] :: r
    else
      match r with
      | h :: t => (c :: h) :: t
      | [] => [[c]]

/-- Suffix of the list strictly after its last `'.'`, if any.
This is the search performed by `std::path::Path` when it splits a file name
at its final dot. -/
def afterLastDot : Str → Option Str
  | [] => none
  | c :: rest =>
    match afterLastDot rest with
    | some e => some e
    | none => if c = '.' then some rest else none

/-- `std::path::Path::file_name` for Unix-style paths: the final
slash-separated component after dropping empty components and `"."`
components, provided that component is not `".."` (in which case, as for an
empty path, there is no file name). -/
def path_file_name (s : Str) : Option Str :=
  match (splitOnChar '/' s).filter (fun t => decide (t ≠ [] ∧ t ≠ ['.'])) with
  | [] => none
  | segs@(_ :: _) =>
    match segs.getLast? with
    | some t => if t = str ".." then none else some t
    | none => none

/-- `std::path::Path::extension` applied to a file name: the portion after the
final `'.'`, where a dot in leading position does not count (so dotfiles have
no extension). -/
def ext_after_dot : Str → Option Str
  | [] => none
  | _ :: rest => afterLastDot rest

/-- src/utils.rs `get_file_extension`: `Path::new(filename).extension()`
lowercased. -/
def get_file_extension (filename : Str) : Option Str :=
  ((path_file_name filename).bind ext_after_dot).map (List.map Char.toLower)

/-- src/utils.rs `calculate_sha256`: the SHA-256 hex digest from the external
`sha2` crate, abstracted as the parameter `hash`. -/
def calculate_sha256 (hash : Bytes → Str) (data : Bytes) : Str := hash data

/-- src/utils.rs `is_file_mime_type`: `mime_type.starts_with("image/")`. -/
def is_file_mime_type (mime_type : Str) : Bool :=
  (str "image/").isPrefixOf mime_type

/-! ### src/models.rs and src/error.rs -/

/-- src/models.rs `File` row. The server-assigned timestamps `uploaded_at`
and `updated_at` play no role in any modelled operation and are omitted. -/
structure File where
  id : Str
  filename : Str
  original_filename : Str
  file_path : Str
  file_size : Nat
  mime_type : Str
  storage_type : Str
  checksum : Option Str
  thumbnail_path : Option Str
deriving DecidableEq, Repr

/-- src/models.rs `UploadResponse`. -/
structure UploadResponse where
  id : Str
  filename : Str
  url : Str
  size : Nat
  mime_type : Str
deriving DecidableEq, Repr

/-- src/error.rs `AppError`. -/
inductive AppError where
  | badRequest (msg : Str)
  | notFound (msg : Str)
  | internalServerError (msg : Str)
  | payloadTooLarge (msg : Str)
  | unsupportedMediaType (msg : Str)
  | multipartError (msg : Str)
  | fileProcessingError (msg : Str)
  | databaseError
deriving DecidableEq, Repr

/-- src/config.rs `Config`, restricted to the fields the modelled handlers
read; the connection string and S3 credential fields never influence the
modelled operations. -/
structure Config where
  max_file_size : Nat
  allowed_extensions : List Str
  use_s3 : Bool
deriving DecidableEq, Repr

/-! ### Storage backends (src/storage/) -/

/-- Backend-visible object store: association list from backend-native key to
payload, first binding wins (so prepending overwrites). -/
abbrev Store := List (Str × Bytes)

/-- Read a key from the store. -/
def Store.find (st : Store) (k : Str) : Option Bytes :=
  (List.find? (fun e => decide (e.1 = k)) st).map (fun e => e.2)

/-- Write a key into the store (overwriting semantics). -/
def Store.set (st : Store) (k : Str) (v : Bytes) : Store := (k, v) :: st

/-- Remove every binding of a key from the store. -/
def Store.erase (st : Store) (k : Str) : Store :=
  st.filter (fun e => decide (e.1 ≠ k))

/-- src/storage/mod.rs trait `Storage`, as explicit state transformers.
`upload` returns the locator persisted by the caller; `none` results model
the backend reporting an error. -/
structure Backend where
  upload : Store → Str → Bytes → Option (Store × Str)
  download : Store → Str → Option Bytes
  delete : Store → Str → Option Store

/-- src/storage/local.rs `LocalStorage` with `base_path = "uploads"`:
`upload` writes the file at `get_full_path` and returns that full path,
`download` reads it (`NotFound` when absent), `delete` removes the file when
present and succeeds regardless. I/O faults are not modelled for the
concrete backend. -/
def localBackend : Backend where
  upload st key content :=
    some (Store.set st (str "uploads/" ++ key) content, str "uploads/" ++ key)
  download st key := Store.find st (str "uploads/" ++ key)
  delete st key := some (Store.erase st (str "uploads/" ++ key))

/-- src/storage/s3.rs `S3Storage`: `upload` puts the object at the key
verbatim and returns `"s3://" ++ key`, `download` gets the object, `delete`
is the backend-idempotent DeleteObject. Transport faults are not modelled
for the concrete backend. -/
def s3Backend : Backend where
  upload st key content := some (Store.set st key content, str "s3://" ++ key)
  download st key := Store.find st key
  delete st key := some (Store.erase st key)

/-- src/storage/mod.rs `init_storage`: select the backend from
`config.use_s3`. -/
def init_storage (use_s3 : Bool) : Backend :=
  if use_s3 then s3Backend else localBackend

/-! ### Database (table `files`) -/

/-- The `files` table, in insertion order. -/
abbrev Db := List File

/-- handlers.rs dedup probe: `SELECT * FROM files WHERE checksum = $1 LIMIT 1`. -/
def find_by_checksum (db : Db) (c : Str) : Option File :=
  db.find? (fun f => decide (f.checksum = some c))

/-- `SELECT * FROM files WHERE id = $1`. -/
def find_by_id (db : Db) (i : Str) : Option File :=
  db.find? (fun f => decide (f.id = i))

/-! ### Upload handler (src/handlers.rs `upload_file`) -/

/-- The multipart fields captured by the parse loop of `upload_file`
(handlers.rs lines 16-50): payload bytes, `file_name()` and `content_type()`
of the `file` field, and the raw text of the optional `filename` field. -/
structure UploadRequest where
  fileData : Option Bytes
  originalFilename : Option Str
  mimeType : Option Str
  rawCustomFilename : Option Str
deriving DecidableEq, Repr

/-- External effects consumed by one run of `upload_file`: the freshly minted
UUID, the result of `generate_thumbnail` (a temp path, `none` on rendering
failure), the result of `tokio::fs::read` on that path, and whether the
database INSERT succeeds. -/
structure UploadEnv where
  freshId : Str
  genThumbPath : Option Str
  readThumb : Option Bytes
  insertOk : Bool
deriving DecidableEq, Repr

/-- handlers.rs lines 40-47: the `filename` field is kept only when its text
is non-empty. -/
def parse_custom (raw : Option Str) : Option Str :=
  match raw with
  | some n => if n = [] then none else some n
  | none => none

/-- handlers.rs lines 85-89: `"{file_id}_{custom}"` when a custom filename was
supplied, else `"{file_id}.{ext}"`. -/
def make_filename (file_id : Str) (custom : Option Str) (ext : Str) : Str :=
  match custom with
  | some custom_name => file_id ++ str "_" ++ custom_name
  | none => file_id ++ str "." ++ ext

/-- handlers.rs line 127: `"thumbnails/{file_id}.jpg"`. -/
def thumb_key (file_id : Str) : Str :=
  str "thumbnails/" ++ file_id ++ str ".jpg"

/-- handlers.rs lines 52-81: presence check, size gate, extension extraction
and allowlist check, in source order. Returns the payload, the original
filename and the lowercased extension. -/
def validate (cfg : Config) (req : UploadRequest) :
    Except AppError (Bytes × Str × Str) :=
  match req.fileData with
  | none => .error (.badRequest (str "No file provided"))
  | some file_data =>
    match req.originalFilename with
    | none => .error (.badRequest (str "No file provided"))
    | some original_filename =>
      if file_data.length > cfg.max_file_size then
        .error (.payloadTooLarge (str "File size exceeds maximum limit"))
      else
        match get_file_extension original_filename with
        | none => .error (.badRequest (str "Invalid file extension"))
        | some extension =>
          if extension ∈ cfg.allowed_extensions then
            .ok (file_data, original_filename, extension)
          else
            .error (.unsupportedMediaType (str "File extension is not allowed"))

/-- Outcome of a handler run: a normal JSON response, an `AppError`, or a
Rust panic (possible at handlers.rs line 123, which calls
`mime_type.clone().unwrap()`). -/
inductive Outcome where
  | panicked
  | err (e : AppError)
  | ok (r : UploadResponse)
deriving DecidableEq, Repr

/-- Full observable result of one `upload_file` run: the outcome, the final
store and database, every `storage.upload` call issued (key and bytes, in
order), and the row inserted, if any. -/
structure UploadOutput where
  outcome : Outcome
  store : Store
  db : Db
  uploadCalls : List (Str × Bytes)
  inserted : Option File
deriving DecidableEq, Repr

/-- handlers.rs lines 122-152: the thumbnail subpipeline. Runs only for
`image/` MIME types; any failure (rendering, reading the rendered file, or
uploading) degrades to no thumbnail. Returns the stored `thumbnail_path`,
the store after the subpipeline, and the upload calls it issued. -/
def thumbnail_step (backend : Backend) (st1 : Store) (env : UploadEnv)
    (mime file_id : Str) : Option Str × Store × List (Str × Bytes) :=
  if is_file_mime_type mime then
    match env.genThumbPath with
    | some _ =>
      match env.readThumb with
      | some thumb_data =>
        match backend.upload st1 (thumb_key file_id) thumb_data with
        | some (st2, _) => (some (thumb_key file_id), st2, [(thumb_key file_id, thumb_data)])
        | none => (none, st1, [(thumb_key file_id, thumb_data)])
      | none => (none, st1, [])
    | none => (none, st1, [])
  else (none, st1, [])

/-- src/handlers.rs `upload_file` (lines 12-186): validation, identity and
key derivation, dedup probe with short-circuit, blob write, thumbnail
subpipeline, metadata insert, response. Note that line 123 unwraps a clone
of `mime_type`, so a missing content type panics on the fresh-upload path
and the `unwrap_or_else` default at line 169 is unreachable with `None`. -/
def upload_file (hash : Bytes → Str) (cfg : Config) (backend : Backend)
    (st0 : Store) (db : Db) (env : UploadEnv) (req : UploadRequest) :
    UploadOutput :=
  match validate cfg req with
  | .error e => ⟨.err e, st0, db, [], none⟩
  | .ok (file_data, original_filename, extension) =>
    let file_id := env.freshId
    let filename := make_filename file_id (parse_custom req.rawCustomFilename) extension
    let file_path := str "files/" ++ filename
    let checksum := calculate_sha256 hash file_data
    match find_by_checksum db checksum with
    | some existing =>
      ⟨.ok ⟨existing.id, existing.filename, str "/files/" ++ existing.id,
            existing.file_size, existing.mime_type⟩,
       st0, db, [], none⟩
    | none =>
      match backend.upload st0 file_path file_data with
      | none =>
        ⟨.err (.internalServerError (str "Failed to upload file")),
         st0, db, [(file_path, file_data)], none⟩
      | some (st1, storage_path) =>
        match req.mimeType with
        | none => ⟨.panicked, st1, db, [(file_path, file_data)], none⟩
        | some mime =>
          match thumbnail_step backend st1 env mime file_id with
          | (thumbnail_path, st2, thumb_calls) =>
            if env.insertOk then
              let rec0 : File :=
                ⟨file_id, filename, original_filename, storage_path,
                 file_data.length, mime,
                 (if cfg.use_s3 then str "s3" else str "local"),
                 some checksum, thumbnail_path⟩
              ⟨.ok ⟨file_id, filename, str "/files/" ++ file_id,
                    file_data.length, mime⟩,
               st2, db ++ [rec0], (file_path, file_data) :: thumb_calls,
               some rec0⟩
            else
              ⟨.err .databaseError, st2, db,
               (file_path, file_data) :: thumb_calls, none⟩

/-! ### Read and delete handlers -/

/-- Strip `p` from the front of `s` when it is a prefix
(Rust `str::strip_prefix`). -/
def stripPrefixOf (p s : Str) : Option Str :=
  if p.isPrefixOf s then some (s.drop p.length) else none

/-- The §6 path-normalization rule as written in `download_file`
(handlers.rs lines 204-218), `delete_file`'s primary path (lines 293-303)
and `get_thummbnail` (lines 363-373): strip a leading `"s3://"` for S3
records, else strip a leading `"uploads/"`, keeping the path unchanged when
the prefix is absent. -/
def normalize_path (storage_type p : Str) : Str :=
  if storage_type = str "s3" then (stripPrefixOf (str "s3://") p).getD p
  else (stripPrefixOf (str "uploads/") p).getD p

/-- src/handlers.rs `download_file` (lines 189-245), reduced to the body
bytes: lookup by id, normalize the stored locator, download from the
backend. -/
def download_file (backend : Backend) (st : Store) (db : Db) (id : Str) :
    Except AppError Bytes :=
  match find_by_id db id with
  | none => .error (.notFound (str "File not found"))
  | some file =>
    match backend.download st (normalize_path file.storage_type file.file_path) with
    | none => .error (.internalServerError (str "Failed to download file"))
    | some content => .ok content

deriving instance DecidableEq for Except

/-- Result of one `delete_file` run: HTTP outcome, final store, final
database. -/
structure DeleteOutput where
  result : Except AppError Unit
  store : Store
  db : Db
deriving DecidableEq, Repr

/-- src/handlers.rs `delete_file` (lines 276-338): lookup, normalize and
delete the primary blob (failure fatal), then — when a thumbnail locator is
present — compute its relative path and attempt deletion, swallowing
failure, then remove the row. Lines 313-323 are transcribed exactly: in the
non-S3 branch the `strip_prefix("uploads/")` fallback is `&file.file_path`,
not the thumbnail path. -/
def delete_file (backend : Backend) (st : Store) (db : Db) (id : Str) :
    DeleteOutput :=
  match find_by_id db id with
  | none => ⟨.error (.notFound (str "File not found")), st, db⟩
  | some file =>
    let file_path := normalize_path file.storage_type file.file_path
    match backend.delete st file_path with
    | none =>
      ⟨.error (.internalServerError (str "Failed to delete file from storage")),
       st, db⟩
    | some st1 =>
      let st2 :=
        match file.thumbnail_path with
        | some thumb_path =>
          let thumb_relative_path :=
            if file.storage_type = str "s3" then
              (stripPrefixOf (str "s3://") thumb_path).getD thumb_path
            else
              (stripPrefixOf (str "uploads/") thumb_path).getD file.file_path
          match backend.delete st1 thumb_relative_path with
          | some st2 => st2
          | none => st1
        | none => st1
      ⟨.ok (), st2, db.filter (fun f => decide (f.id ≠ id))⟩

/-! ### Claim-side definition for C9 -/

/-- C9's reading of the spec sentence, stated over the whole filename string:
absent for dotfiles (a leading `'.'` and no other `'.'`), otherwise the
lowercased substring after the final `'.'` when there is one and absent when
there is none. Compared with `get_file_extension` in the C9 theorems. -/
def extensionPerClaim (s : Str) : Option Str :=
  if s.head? = some '.' ∧ '.' ∉ s.tail then none
  else (afterLastDot s).map (List.map Char.toLower)

/-- True exactly for the three input-validation errors of the upload handler
(presence, size, extension). -/
def is_validation_error : AppError → Bool
  | .badRequest _ => true
  | .payloadTooLarge _ => true
  | .unsupportedMediaType _ => true
  | _ => false

/-! ### Concrete instances used by witnesses and counterexamples -/

/-- A concrete stand-in for the abstracted SHA-256 digest. -/
def hashW : Bytes → Str := fun b => b.map (fun n => Char.ofNat (48 + n % 10))

/-- Concrete configuration: 10-byte limit, `txt` and `png` allowed, local
backend. -/
def cfgW : Config := ⟨10, [str "txt", str "png"], false⟩

/-- Concrete configuration selecting the S3 backend. -/
def cfgS3W : Config := ⟨10, [str "txt", str "png"], true⟩

/-- Environment for a first concrete run: fresh id `id1`, no thumbnail
artifacts, insert succeeds. -/
def envW1 : UploadEnv := ⟨str "id1", none, none, true⟩

/-- Environment for a second concrete run: fresh id `id2`. -/
def envW2 : UploadEnv := ⟨str "id2", none, none, true⟩

/-- Environment in which the thumbnail renderer produced a temp file that
was read back successfully. -/
def envWT : UploadEnv := ⟨str "id1", some (str "tmp/id1_thumb.jpg"), some [7, 7], true⟩

/-- A plain-text upload request: payload `[1,2,3]`, original name `a.txt`,
MIME `text/plain`, no custom filename. -/
def reqW1 : UploadRequest := ⟨some [1, 2, 3], some (str "a.txt"), some (str "text/plain"), none⟩

/-- Byte-identical payload under a different original filename. -/
def reqW2 : UploadRequest := ⟨some [1, 2, 3], some (str "b.txt"), some (str "text/plain"), none⟩

/-- Same as `reqW1` but the `file` part carries no content type. -/
def reqWNoMime : UploadRequest := ⟨some [1, 2, 3], some (str "a.txt"), none, none⟩

/-- An image upload request (eligible for the thumbnail subpipeline). -/
def reqWImg : UploadRequest := ⟨some [1, 2, 3], some (str "a.png"), some (str "image/png"), none⟩

/-- An image upload request carrying a custom `filename` field. -/
def reqWCustom : UploadRequest :=
  ⟨some [1, 2, 3], some (str "a.txt"), some (str "text/plain"), some (str "evil.exe")⟩

/-- A backend that accepts primary blobs but reports an error for every
thumbnail upload (key under `thumbnails/`); used to exercise the
thumbnail-upload failure path. -/
def thumbFailBackend : Backend where
  upload st key content :=
    if (str "thumbnails/").isPrefixOf key then none
    else some (Store.set st (str "uploads/" ++ key) content, str "uploads/" ++ key)
  download st key := Store.find st (str "uploads/" ++ key)
  delete st key := some (Store.erase st (str "uploads/" ++ key))

/-- A local-backend row as created by the ingest pipeline for an image:
locator `uploads/files/I.png`, thumbnail locator `thumbnails/I.jpg`. -/
def recWLocal : File :=
  ⟨str "I", str "I.png", str "o.png", str "uploads/files/I.png", 3,
   str "image/png", str "local", some (str "c"), some (str "thumbnails/I.jpg")⟩

/-- Local filesystem contents backing `recWLocal`: the blob and its
thumbnail, keyed by full path under `uploads/`. -/
def stWLocal : Store :=
  [(str "uploads/files/I.png", [1, 2, 3]), (str "uploads/thumbnails/I.jpg", [9])]

/-- The row committed by `upload_file hashW cfgW localBackend [] [] envW1 reqW1`. -/
def recW1 : File :=
  ⟨str "id1", str "id1.txt", str "a.txt", str "uploads/files/id1.txt", 3,
   str "text/plain", str "local", some (str "123"), none⟩

/-- The row committed by `upload_file hashW cfgW localBackend [] [] envWT reqWImg`
(image upload on the local backend, thumbnail rendered and stored). -/
def recWImg : File :=
  ⟨str "id1", str "id1.png", str "a.png", str "uploads/files/id1.png", 3,
   str "image/png", str "local", some (str "123"), some (str "thumbnails/id1.jpg")⟩

/-! ## Helper lemmas -/

theorem store_find_set_same (st : Store) (k : Str) (v : Bytes) :
    Store.find (Store.set st k v) k = some v := by
  simp [Store.find, Store.set, List.find?_cons]

theorem store_find_set_other (st : Store) (k k' : Str) (v : Bytes) (h : k' ≠ k) :
    Store.find (Store.set st k v) k' = Store.find st k' := by
  have hk : decide (((k, v)).1 = k') = false := by
    simp [Ne.symm h]
  simp [Store.find, Store.set, List.find?_cons, hk]

theorem stripPrefixOf_append (p s : Str) : stripPrefixOf p (p ++ s) = some s := by
  have h1 : p.isPrefixOf (p ++ s) = true :=
    List.isPrefixOf_iff_prefix.mpr (List.prefix_append p s)
  simp [stripPrefixOf, h1, List.drop_left]

theorem files_key_ne_thumb_key (x y : Str) :
    str "files/" ++ x ≠ str "thumbnails/" ++ y := by
  intro h
  have e1 : str "files/" ++ x = 'f' :: (str "iles/" ++ x) := rfl
  have e2 : str "thumbnails/" ++ y = 't' :: (str "humbnails/" ++ y) := rfl
  rw [e1, e2] at h
  injection h with h1 _
  exact absurd h1 (by decide)

theorem find?_append_last {α : Type} (p : α → Bool) (l : List α) (a : α)
    (hl : List.find? p l = none) (ha : p a = true) :
    List.find? p (l ++ [a]) = some a := by
  rw [List.find?_append, hl]
  simp [List.find?_cons, ha]

theorem validate_ok_inv {cfg : Config} {req : UploadRequest} {d : Bytes} {o e : Str}
    (h : validate cfg req = .ok (d, o, e)) :
    req.fileData = some d ∧ req.originalFilename = some o ∧
    d.length ≤ cfg.max_file_size ∧ get_file_extension o = some e ∧
    e ∈ cfg.allowed_extensions := by
  cases hfd : req.fileData with
  | none => simp [validate, hfd] at h
  | some fd =>
    cases horig : req.originalFilename with
    | none => simp [validate, hfd, horig] at h
    | some o' =>
      by_cases hsz : fd.length > cfg.max_file_size
      · simp [validate, hfd, horig, hsz] at h
      · cases hext : get_file_extension o' with
        | none => simp [validate, hfd, horig, hsz, hext] at h
        | some e' =>
          by_cases hmem : e' ∈ cfg.allowed_extensions
          · simp [validate, hfd, horig, hsz, hext, hmem, Prod.ext_iff] at h
            obtain ⟨h1, h2, h3⟩ := h
            subst h1; subst h2; subst h3
            exact ⟨rfl, rfl, Nat.le_of_not_lt hsz, hext, hmem⟩
          · simp [validate, hfd, horig, hsz, hext, hmem] at h

theorem upload_run_dedup {hash : Bytes → Str} {cfg : Config} {backend : Backend}
    {st0 : Store} {db : Db} {env : UploadEnv} {req : UploadRequest}
    {d : Bytes} {o ex : Str} {existing : File}
    (hval : validate cfg req = .ok (d, o, ex))
    (hprobe : find_by_checksum db (hash d) = some existing) :
    upload_file hash cfg backend st0 db env req =
      ⟨.ok ⟨existing.id, existing.filename, str "/files/" ++ existing.id,
            existing.file_size, existing.mime_type⟩, st0, db, [], none⟩ := by
  simp only [upload_file, hval, calculate_sha256, hprobe]

theorem upload_run_commit {hash : Bytes → Str} {cfg : Config} {backend : Backend}
    {st0 : Store} {db : Db} {env : UploadEnv} {req : UploadRequest}
    {d : Bytes} {o ex : Str} {st1 : Store} {loc mime : Str}
    {tp : Option Str} {st2 : Store} {calls : List (Str × Bytes)}
    (hval : validate cfg req = .ok (d, o, ex))
    (hprobe : find_by_checksum db (hash d) = none)
    (hup : backend.upload st0
      (str "files/" ++ make_filename env.freshId (parse_custom req.rawCustomFilename) ex) d
      = some (st1, loc))
    (hmime : req.mimeType = some mime)
    (hthumb : thumbnail_step backend st1 env mime env.freshId = (tp, st2, calls))
    (hins : env.insertOk = true) :
    upload_file hash cfg backend st0 db env req =
      ⟨.ok ⟨env.freshId,
            make_filename env.freshId (parse_custom req.rawCustomFilename) ex,
            str "/files/" ++ env.freshId, d.length, mime⟩,
       st2,
       db ++ [⟨env.freshId,
               make_filename env.freshId (parse_custom req.rawCustomFilename) ex,
               o, loc, d.length, mime,
               (if cfg.use_s3 then str "s3" else str "local"),
               some (hash d), tp⟩],
       (str "files/" ++ make_filename env.freshId (parse_custom req.rawCustomFilename) ex,
        d) :: calls,
       some ⟨env.freshId,
             make_filename env.freshId (parse_custom req.rawCustomFilename) ex,
             o, loc, d.length, mime,
             (if cfg.use_s3 then str "s3" else str "local"),
             some (hash d), tp⟩⟩ := by
  simp only [upload_file, hval, calculate_sha256, hprobe, hup, hmime, hthumb, hins,
    if_true]

theorem upload_inserted_inv {hash : Bytes → Str} {cfg : Config} {backend : Backend}
    {st0 : Store} {db : Db} {env : UploadEnv} {req : UploadRequest} {rec : File}
    (h : (upload_file hash cfg backend st0 db env req).inserted = some rec) :
    ∃ d o ex st1 loc mime tp st2 calls,
      validate cfg req = .ok (d, o, ex) ∧
      find_by_checksum db (hash d) = none ∧
      backend.upload st0
        (str "files/" ++ make_filename env.freshId (parse_custom req.rawCustomFilename) ex) d
        = some (st1, loc) ∧
      req.mimeType = some mime ∧
      thumbnail_step backend st1 env mime env.freshId = (tp, st2, calls) ∧
      env.insertOk = true ∧
      rec = ⟨env.freshId,
             make_filename env.freshId (parse_custom req.rawCustomFilename) ex,
             o, loc, d.length, mime,
             (if cfg.use_s3 then str "s3" else str "local"),
             some (hash d), tp⟩ := by
  cases hval : validate cfg req with
  | error e => simp [upload_file, hval] at h
  | ok t =>
    obtain ⟨d, o, ex⟩ := t
    cases hprobe : find_by_checksum db (hash d) with
    | some existing =>
      rw [upload_run_dedup hval hprobe] at h
      simp at h
    | none =>
      cases hup : backend.upload st0
          (str "files/" ++ make_filename env.freshId (parse_custom req.rawCustomFilename) ex) d with
      | none => simp [upload_file, hval, calculate_sha256, hprobe, hup] at h
      | some p =>
        obtain ⟨st1, loc⟩ := p
        cases hmime : req.mimeType with
        | none => simp [upload_file, hval, calculate_sha256, hprobe, hup, hmime] at h
        | some mime =>
          rcases hthumb : thumbnail_step backend st1 env mime env.freshId with ⟨tp, st2, calls⟩
          cases hins : env.insertOk with
          | false =>
            simp [upload_file, hval, calculate_sha256, hprobe, hup, hmime, hthumb, hins] at h
          | true =>
            rw [upload_run_commit hval hprobe hup hmime hthumb hins] at h
            simp only [Option.some.injEq] at h
            exact ⟨d, o, ex, st1, loc, mime, tp, st2, calls,
              rfl, hprobe, hup, rfl, hthumb, rfl, h.symm⟩

theorem upload_ok_inv {hash : Bytes → Str} {cfg : Config} {backend : Backend}
    {st0 : Store} {db : Db} {env : UploadEnv} {req : UploadRequest}
    {r : UploadResponse}
    (h : (upload_file hash cfg backend st0 db env req).outcome = .ok r) :
    (∃ d o ex existing,
       validate cfg req = .ok (d, o, ex) ∧
       find_by_checksum db (hash d) = some existing ∧
       upload_file hash cfg backend st0 db env req =
         ⟨.ok ⟨existing.id, existing.filename, str "/files/" ++ existing.id,
               existing.file_size, existing.mime_type⟩, st0, db, [], none⟩) ∨
    (∃ rec, (upload_file hash cfg backend st0 db env req).inserted = some rec) := by
  cases hval : validate cfg req with
  | error e => simp [upload_file, hval] at h
  | ok t =>
    obtain ⟨d, o, ex⟩ := t
    cases hprobe : find_by_checksum db (hash d) with
    | some existing =>
      exact Or.inl ⟨d, o, ex, existing, rfl, hprobe, upload_run_dedup hval hprobe⟩
    | none =>
      cases hup : backend.upload st0
          (str "files/" ++ make_filename env.freshId (parse_custom req.rawCustomFilename) ex) d with
      | none => simp [upload_file, hval, calculate_sha256, hprobe, hup] at h
      | some p =>
        obtain ⟨st1, loc⟩ := p
        cases hmime : req.mimeType with
        | none => simp [upload_file, hval, calculate_sha256, hprobe, hup, hmime] at h
        | some mime =>
          rcases hthumb : thumbnail_step backend st1 env mime env.freshId with ⟨tp, st2, calls⟩
          cases hins : env.insertOk with
          | false =>
            simp [upload_file, hval, calculate_sha256, hprobe, hup, hmime, hthumb, hins] at h
          | true =>
            exact Or.inr ⟨_, by rw [upload_run_commit hval hprobe hup hmime hthumb hins]⟩

theorem upload_err_payload_iff {hash : Bytes → Str} {cfg : Config} {backend : Backend}
    {st0 : Store} {db : Db} {env : UploadEnv} {req : UploadRequest} :
    (∃ m, (upload_file hash cfg backend st0 db env req).outcome = .err (.payloadTooLarge m)) ↔
    (∃ m, validate cfg req = .error (.payloadTooLarge m)) := by
  constructor
  · rintro ⟨m, h⟩
    cases hval : validate cfg req with
    | error e =>
      simp only [upload_file, hval] at h
      refine ⟨m, ?_⟩
      simp only [Outcome.err.injEq] at h
      rw [h]
    | ok t =>
      exfalso
      obtain ⟨d, o, ex⟩ := t
      cases hprobe : find_by_checksum db (hash d) with
      | some existing => rw [upload_run_dedup hval hprobe] at h; simp at h
      | none =>
        cases hup : backend.upload st0
            (str "files/" ++ make_filename env.freshId (parse_custom req.rawCustomFilename) ex) d with
        | none => simp [upload_file, hval, calculate_sha256, hprobe, hup] at h
        | some p =>
          obtain ⟨st1, loc⟩ := p
          cases hmime : req.mimeType with
          | none => simp [upload_file, hval, calculate_sha256, hprobe, hup, hmime] at h
          | some mime =>
            rcases hthumb : thumbnail_step backend st1 env mime env.freshId with ⟨tp, st2, calls⟩
            cases hins : env.insertOk with
            | false =>
              simp [upload_file, hval, calculate_sha256, hprobe, hup, hmime, hthumb, hins] at h
            | true =>
              rw [upload_run_commit hval hprobe hup hmime hthumb hins] at h
              simp at h
  · rintro ⟨m, hv⟩
    exact ⟨m, by simp [upload_file, hv]⟩

theorem validate_payload_iff {cfg : Config} {req : UploadRequest} {d : Bytes} {o : Str}
    (hd : req.fileData = some d) (ho : req.originalFilename = some o) :
    (∃ m, validate cfg req = .error (.payloadTooLarge m)) ↔
    d.length > cfg.max_file_size := by
  constructor
  · rintro ⟨m, h⟩
    by_cases hsz : d.length > cfg.max_file_size
    · exact hsz
    · exfalso
      cases hext : get_file_extension o with
      | none => simp [validate, hd, ho, hsz, hext] at h
      | some e =>
        by_cases hmem : e ∈ cfg.allowed_extensions
        · simp [validate, hd, ho, hsz, hext, hmem] at h
        · simp [validate, hd, ho, hsz, hext, hmem] at h
  · intro hsz
    exact ⟨str "File size exceeds maximum limit", by simp [validate, hd, ho, hsz]⟩

/-! ## Claim theorems -/

/-- C4: Size gate. For an upload request carrying a payload (the `file` field
present with its filename), the handler returns `PayloadTooLarge` (413) if
and only if the payload length exceeds `max_file_size`; in particular a
payload of exactly `max_file_size` bytes passes the size check. -/
theorem size_gate (hash : Bytes → Str) (cfg : Config) (backend : Backend)
    (st0 : Store) (db : Db) (env : UploadEnv) (req : UploadRequest)
    (d : Bytes) (o : Str)
    (hd : req.fileData = some d) (ho : req.originalFilename = some o) :
    (∃ m, (upload_file hash cfg backend st0 db env req).outcome =
      .err (.payloadTooLarge m)) ↔ d.length > cfg.max_file_size :=
  upload_err_payload_iff.trans (validate_payload_iff hd ho)

/-- C4 witness: a 3-byte payload against a 10-byte limit yields no 413; the
instantiated equivalence is the theorem applied at concrete input. -/
theorem size_gate_witness :
    reqW1.fileData = some [1, 2, 3] ∧
    ((∃ m, (upload_file hashW cfgW localBackend [] [] envW1 reqW1).outcome =
        .err (.payloadTooLarge m)) ↔ ([1, 2, 3] : Bytes).length > cfgW.max_file_size) :=
  ⟨rfl, size_gate hashW cfgW localBackend [] [] envW1 reqW1 [1, 2, 3] (str "a.txt") rfl rfl⟩

/-- C5: Validation atomicity. Whenever the upload handler fails with one of
the three input-validation errors (`BadRequest`, `PayloadTooLarge`,
`UnsupportedMediaType`), no `storage.upload` call has been made, no row has
been inserted, and both the store and the database are unchanged. -/
theorem validation_atomicity (hash : Bytes → Str) (cfg : Config)
    (backend : Backend) (st0 : Store) (db : Db) (env : UploadEnv)
    (req : UploadRequest) (e : AppError)
    (herr : (upload_file hash cfg backend st0 db env req).outcome = .err e)
    (hvalerr : is_validation_error e = true) :
    (upload_file hash cfg backend st0 db env req).store = st0 ∧
    (upload_file hash cfg backend st0 db env req).db = db ∧
    (upload_file hash cfg backend st0 db env req).uploadCalls = [] ∧
    (upload_file hash cfg backend st0 db env req).inserted = none := by
  cases hval : validate cfg req with
  | error e' => simp [upload_file, hval]
  | ok t =>
    exfalso
    obtain ⟨d, o, ex⟩ := t
    cases hprobe : find_by_checksum db (hash d) with
    | some existing => rw [upload_run_dedup hval hprobe] at herr; simp at herr
    | none =>
      cases hup : backend.upload st0
          (str "files/" ++ make_filename env.freshId (parse_custom req.rawCustomFilename) ex) d with
      | none =>
        simp only [upload_file, hval, calculate_sha256, hprobe, hup] at herr
        simp only [Outcome.err.injEq] at herr
        rw [← herr] at hvalerr
        simp [is_validation_error] at hvalerr
      | some p =>
        obtain ⟨st1, loc⟩ := p
        cases hmime : req.mimeType with
        | none => simp [upload_file, hval, calculate_sha256, hprobe, hup, hmime] at herr
        | some mime =>
          rcases hthumb : thumbnail_step backend st1 env mime env.freshId with ⟨tp, st2, calls⟩
          cases hins : env.insertOk with
          | false =>
            simp only [upload_file, hval, calculate_sha256, hprobe, hup, hmime, hthumb,
              Bool.false_eq_true, if_false, hins] at herr
            simp only [Outcome.err.injEq] at herr
            rw [← herr] at hvalerr
            simp [is_validation_error] at hvalerr
          | true =>
            rw [upload_run_commit hval hprobe hup hmime hthumb hins] at herr
            simp at herr

/-- C5 witness: an 11-byte payload against the 10-byte limit is rejected
with 413 and leaves store, database, upload-call list and inserted row
untouched; the theorem is applied at this concrete input. -/
theorem validation_atomicity_witness :
    (upload_file hashW cfgW localBackend [] [] envW1
        ⟨some [0, 0, 0, 0, 0, 0, 0, 0, 0, 0, 0], some (str "a.txt"),
         some (str "text/plain"), none⟩).outcome
      = .err (.payloadTooLarge (str "File size exceeds maximum limit")) ∧
    is_validation_error (.payloadTooLarge (str "File size exceeds maximum limit")) = true ∧
    ((upload_file hashW cfgW localBackend [] [] envW1
        ⟨some [0, 0, 0, 0, 0, 0, 0, 0, 0, 0, 0], some (str "a.txt"),
         some (str "text/plain"), none⟩).store = [] ∧
     (upload_file hashW cfgW localBackend [] [] envW1
        ⟨some [0, 0, 0, 0, 0, 0, 0, 0, 0, 0, 0], some (str "a.txt"),
         some (str "text/plain"), none⟩).db = [] ∧
     (upload_file hashW cfgW localBackend [] [] envW1
        ⟨some [0, 0, 0, 0, 0, 0, 0, 0, 0, 0, 0], some (str "a.txt"),
         some (str "text/plain"), none⟩).uploadCalls = [] ∧
     (upload_file hashW cfgW localBackend [] [] envW1
        ⟨some [0, 0, 0, 0, 0, 0, 0, 0, 0, 0, 0], some (str "a.txt"),
         some (str "text/plain"), none⟩).inserted = none) :=
  ⟨by decide, rfl,
   validation_atomicity hashW cfgW localBackend [] [] envW1
     ⟨some [0, 0, 0, 0, 0, 0, 0, 0, 0, 0, 0], some (str "a.txt"),
      some (str "text/plain"), none⟩
     (.payloadTooLarge (str "File size exceeds maximum limit")) (by decide) rfl⟩

/-- C2 (code bug): an upload that passes the presence, size and extension
checks but whose `file` part carries no content type panics at
handlers.rs line 123 (`mime_type.clone().unwrap()` on `None`) on the
fresh-upload path, instead of completing and committing a record with
mime_type `application/octet-stream`; nothing is inserted. -/
theorem missing_mime_panics :
    validate cfgW reqWNoMime = .ok ([1, 2, 3], str "a.txt", str "txt") ∧
    (upload_file hashW cfgW localBackend [] [] envW1 reqWNoMime).outcome = .panicked ∧
    (upload_file hashW cfgW localBackend [] [] envW1 reqWNoMime).inserted = none := by
  decide

/-- C3 (code bug): deleting a local-backend record whose thumbnail locator is
`thumbnails/I.jpg` succeeds with 204 and removes the primary blob, but the
thumbnail is still present on the backend afterwards: the local branch of
the delete handler (handlers.rs line 321) falls back to `file.file_path`
instead of the thumbnail path, so `storage.delete` is never called on the
thumbnail's key. -/
theorem delete_thumbnail_bug :
    (delete_file localBackend stWLocal [recWLocal] (str "I")).result = .ok () ∧
    Store.find (delete_file localBackend stWLocal [recWLocal] (str "I")).store
      (str "uploads/files/I.png") = none ∧
    Store.find (delete_file localBackend stWLocal [recWLocal] (str "I")).store
      (str "uploads/thumbnails/I.jpg") = some [9] ∧
    (delete_file localBackend stWLocal [recWLocal] (str "I")).db = [] := by
  decide

/-- C1: Dedup short-circuit. If a first upload of payload `data` commits row
`rec`, then a second successful upload of the byte-identical payload issues
no `storage.upload` call, inserts no row, leaves store and database
unchanged, and responds with the first row's id, filename, file_size and
mime_type under url `/files/{id}`. -/
theorem dedup_short_circuit (hash : Bytes → Str) (cfg : Config) (backend : Backend)
    (st0 : Store) (db0 : Db) (env1 env2 : UploadEnv) (req1 req2 : UploadRequest)
    (data : Bytes) (r1 r2 : UploadResponse) (rec : File) (out1 out2 : UploadOutput)
    (ho1 : out1 = upload_file hash cfg backend st0 db0 env1 req1)
    (ho2 : out2 = upload_file hash cfg backend out1.store out1.db env2 req2)
    (hd1 : req1.fileData = some data) (hd2 : req2.fileData = some data)
    (hok1 : out1.outcome = .ok r1) (hins1 : out1.inserted = some rec)
    (hok2 : out2.outcome = .ok r2) :
    out2 = ⟨.ok ⟨rec.id, rec.filename, str "/files/" ++ rec.id,
                 rec.file_size, rec.mime_type⟩, out1.store, out1.db, [], none⟩ ∧
    r2 = ⟨rec.id, rec.filename, str "/files/" ++ rec.id,
          rec.file_size, rec.mime_type⟩ := by
  subst ho1
  subst ho2
  obtain ⟨d1, o1, ex1, st1, loc1, mime1, tp1, st2, calls1,
    hval1, hprobe1, hup1, hmime1, hthumb1, hins1', hrec⟩ := upload_inserted_inv hins1
  obtain ⟨hfd1, -, -, -, -⟩ := validate_ok_inv hval1
  rw [hd1] at hfd1
  obtain rfl : data = d1 := Option.some.inj hfd1
  have hdb1 : (upload_file hash cfg backend st0 db0 env1 req1).db =
      db0 ++ [⟨env1.freshId,
               make_filename env1.freshId (parse_custom req1.rawCustomFilename) ex1,
               o1, loc1, data.length, mime1,
               (if cfg.use_s3 then str "s3" else str "local"),
               some (hash data), tp1⟩] := by
    rw [upload_run_commit hval1 hprobe1 hup1 hmime1 hthumb1 hins1']
  have hfind : find_by_checksum (upload_file hash cfg backend st0 db0 env1 req1).db
      (hash data) = some rec := by
    rw [hdb1, hrec]
    exact find?_append_last _ db0 _ hprobe1 (by simp)
  rcases upload_ok_inv hok2 with
    ⟨d2, o2, ex2, existing, hval2, hprobe2, heq2⟩ | ⟨rec2, hins2⟩
  · obtain ⟨hfd2, -, -, -, -⟩ := validate_ok_inv hval2
    rw [hd2] at hfd2
    obtain rfl : data = d2 := Option.some.inj hfd2
    rw [hfind] at hprobe2
    obtain rfl : rec = existing := Option.some.inj hprobe2
    refine ⟨heq2, ?_⟩
    rw [heq2] at hok2
    exact (Outcome.ok.inj hok2).symm
  · exfalso
    obtain ⟨d2, o2, ex2, st1', loc', mime', tp', st2', calls',
      hval2, hprobe2, -, -, -, -, -⟩ := upload_inserted_inv hins2
    obtain ⟨hfd2, -, -, -, -⟩ := validate_ok_inv hval2
    rw [hd2] at hfd2
    obtain rfl : data = d2 := Option.some.inj hfd2
    rw [hfind] at hprobe2
    cases hprobe2

/-- C1 witness: two sequential uploads of `[1,2,3]` on the local backend; the
first commits `recW1`, the second is resolved by applying the theorem at
these concrete inputs. -/
theorem dedup_short_circuit_witness :
    (upload_file hashW cfgW localBackend [] [] envW1 reqW1).inserted = some recW1 ∧
    upload_file hashW cfgW localBackend
        (upload_file hashW cfgW localBackend [] [] envW1 reqW1).store
        (upload_file hashW cfgW localBackend [] [] envW1 reqW1).db envW2 reqW2 =
      ⟨.ok ⟨recW1.id, recW1.filename, str "/files/" ++ recW1.id,
            recW1.file_size, recW1.mime_type⟩,
       (upload_file hashW cfgW localBackend [] [] envW1 reqW1).store,
       (upload_file hashW cfgW localBackend [] [] envW1 reqW1).db, [], none⟩ :=
  ⟨by decide,
   (dedup_short_circuit hashW cfgW localBackend [] [] envW1 envW2 reqW1 reqW2
     [1, 2, 3]
     ⟨str "id1", str "id1.txt", str "/files/id1", 3, str "text/plain"⟩
     ⟨str "id1", str "id1.txt", str "/files/id1", 3, str "text/plain"⟩
     recW1 _ _ rfl rfl rfl rfl (by decide) (by decide) (by decide)).1⟩

theorem thumbnail_step_local_find (st1 : Store) (env : UploadEnv)
    (mime fid k : Str) (tp : Option Str) (st2 : Store)
    (calls : List (Str × Bytes))
    (h : thumbnail_step localBackend st1 env mime fid = (tp, st2, calls))
    (hk : k ≠ str "uploads/" ++ thumb_key fid) :
    Store.find st2 k = Store.find st1 k := by
  cases himg : is_file_mime_type mime with
  | false =>
    simp [thumbnail_step, himg] at h
    rw [← h.2.1]
  | true =>
    cases hgen : env.genThumbPath with
    | none =>
      simp [thumbnail_step, himg, hgen] at h
      rw [← h.2.1]
    | some p =>
      cases hrd : env.readThumb with
      | none =>
        simp [thumbnail_step, himg, hgen, hrd] at h
        rw [← h.2.1]
      | some tb =>
        simp [thumbnail_step, himg, hgen, hrd, localBackend] at h
        rw [← h.2.1]
        exact store_find_set_other st1 _ k tb hk

theorem thumbnail_step_s3_find (st1 : Store) (env : UploadEnv)
    (mime fid k : Str) (tp : Option Str) (st2 : Store)
    (calls : List (Str × Bytes))
    (h : thumbnail_step s3Backend st1 env mime fid = (tp, st2, calls))
    (hk : k ≠ thumb_key fid) :
    Store.find st2 k = Store.find st1 k := by
  cases himg : is_file_mime_type mime with
  | false =>
    simp [thumbnail_step, himg] at h
    rw [← h.2.1]
  | true =>
    cases hgen : env.genThumbPath with
    | none =>
      simp [thumbnail_step, himg, hgen] at h
      rw [← h.2.1]
    | some p =>
      cases hrd : env.readThumb with
      | none =>
        simp [thumbnail_step, himg, hgen, hrd] at h
        rw [← h.2.1]
      | some tb =>
        simp [thumbnail_step, himg, hgen, hrd, s3Backend] at h
        rw [← h.2.1]
        exact store_find_set_other st1 _ k tb hk

/-- C7: Thumbnail failures are never fatal. For an image-MIME upload that
passes validation, misses the dedup probe and whose primary blob write
succeeds, any failure of the thumbnail subpipeline — rendering failed, the
rendered file could not be read back, or the thumbnail upload failed — still
lets the handler commit metadata and return 200, with `thumbnail_path`
absent in the committed row. -/
theorem thumbnail_failure_not_fatal (hash : Bytes → Str) (cfg : Config)
    (backend : Backend) (st0 : Store) (db : Db) (env : UploadEnv)
    (req : UploadRequest) (d : Bytes) (o ex mime : Str) (st1 : Store) (loc : Str)
    (hval : validate cfg req = .ok (d, o, ex))
    (hmime : req.mimeType = some mime)
    (himg : is_file_mime_type mime = true)
    (hprobe : find_by_checksum db (hash d) = none)
    (hup : backend.upload st0
      (str "files/" ++ make_filename env.freshId (parse_custom req.rawCustomFilename) ex) d
      = some (st1, loc))
    (hfail : env.genThumbPath = none ∨ env.readThumb = none ∨
      (∃ tb, env.readThumb = some tb ∧
        backend.upload st1 (thumb_key env.freshId) tb = none))
    (hins : env.insertOk = true) :
    ∃ rec, (upload_file hash cfg backend st0 db env req).outcome =
        .ok ⟨env.freshId,
             make_filename env.freshId (parse_custom req.rawCustomFilename) ex,
             str "/files/" ++ env.freshId, d.length, mime⟩ ∧
      (upload_file hash cfg backend st0 db env req).inserted = some rec ∧
      rec.thumbnail_path = none := by
  have hthumb : ∃ st2 calls,
      thumbnail_step backend st1 env mime env.freshId = (none, st2, calls) := by
    cases hgen : env.genThumbPath with
    | none => exact ⟨st1, [], by simp [thumbnail_step, himg, hgen]⟩
    | some p =>
      rcases hfail with h1 | h2 | ⟨tb, htb, hupfail⟩
      · rw [hgen] at h1; cases h1
      · exact ⟨st1, [], by simp [thumbnail_step, himg, hgen, h2]⟩
      · exact ⟨st1, [(thumb_key env.freshId, tb)],
          by simp [thumbnail_step, himg, hgen, htb, hupfail]⟩
  obtain ⟨st2, calls, hthumb⟩ := hthumb
  refine ⟨⟨env.freshId,
           make_filename env.freshId (parse_custom req.rawCustomFilename) ex,
           o, loc, d.length, mime,
           (if cfg.use_s3 then str "s3" else str "local"),
           some (hash d), none⟩, ?_, ?_, rfl⟩
  · rw [upload_run_commit hval hprobe hup hmime hthumb hins]
  · rw [upload_run_commit hval hprobe hup hmime hthumb hins]

/-- C7 witness: an `image/png` upload whose thumbnail rendering fails
(`generate_thumbnail` returned an error) still returns 200 and commits a
row without `thumbnail_path`; the theorem is applied at this input. -/
theorem thumbnail_failure_not_fatal_witness :
    is_file_mime_type (str "image/png") = true ∧
    envW1.genThumbPath = none ∧
    (∃ rec, (upload_file hashW cfgW localBackend [] [] envW1 reqWImg).outcome =
        .ok ⟨envW1.freshId,
             make_filename envW1.freshId (parse_custom reqWImg.rawCustomFilename) (str "png"),
             str "/files/" ++ envW1.freshId, ([1, 2, 3] : Bytes).length, str "image/png"⟩ ∧
      (upload_file hashW cfgW localBackend [] [] envW1 reqWImg).inserted = some rec ∧
      rec.thumbnail_path = none) :=
  ⟨by decide, rfl,
   thumbnail_failure_not_fatal hashW cfgW localBackend [] [] envW1 reqWImg
     [1, 2, 3] (str "a.png") (str "png") (str "image/png") _ _
     (by decide) rfl (by decide) rfl rfl (Or.inl rfl) rfl⟩

/-- C8: Filename derivation. Every committed upload stores `id = freshId`;
when the `filename` field is absent or empty the stored filename is
`"{file_id}.{ext}"` with `ext` the lowercased extension of the original
filename, and when it carries a non-empty value `C` the stored filename is
`"{file_id}_{C}"`. -/
theorem filename_derivation (hash : Bytes → Str) (cfg : Config)
    (backend : Backend) (st0 : Store) (db : Db) (env : UploadEnv)
    (req : UploadRequest) (rec : File)
    (h : (upload_file hash cfg backend st0 db env req).inserted = some rec) :
    rec.id = env.freshId ∧
    ((req.rawCustomFilename = none ∨ req.rawCustomFilename = some []) →
      ∃ original ext, req.originalFilename = some original ∧
        get_file_extension original = some ext ∧
        rec.filename = env.freshId ++ str "." ++ ext) ∧
    (∀ C, req.rawCustomFilename = some C → C ≠ [] →
      rec.filename = env.freshId ++ str "_" ++ C) := by
  obtain ⟨d, o, ex, st1, loc, mime, tp, st2, calls,
    hval, hprobe, hup, hmime, hthumb, hins, hrec⟩ := upload_inserted_inv h
  obtain ⟨hfd, horig, -, hext, -⟩ := validate_ok_inv hval
  subst hrec
  refine ⟨rfl, ?_, ?_⟩
  · rintro (hc | hc)
    · exact ⟨o, ex, horig, hext, by simp [make_filename, parse_custom, hc]⟩
    · exact ⟨o, ex, horig, hext, by simp [make_filename, parse_custom, hc]⟩
  · intro C hC hne
    simp [make_filename, parse_custom, hC, hne]

/-- C8 witness: the committed row of the `a.txt` upload without a custom
filename has id `id1` and filename `id1.txt`; the theorem is applied at
this concrete committed run. -/
theorem filename_derivation_witness :
    (upload_file hashW cfgW localBackend [] [] envW1 reqW1).inserted = some recW1 ∧
    (recW1.id = envW1.freshId ∧
     ((reqW1.rawCustomFilename = none ∨ reqW1.rawCustomFilename = some []) →
       ∃ original ext, reqW1.originalFilename = some original ∧
         get_file_extension original = some ext ∧
         recW1.filename = envW1.freshId ++ str "." ++ ext) ∧
     (∀ C, reqW1.rawCustomFilename = some C → C ≠ [] →
       recW1.filename = envW1.freshId ++ str "_" ++ C)) :=
  ⟨by decide,
   filename_derivation hashW cfgW localBackend [] [] envW1 reqW1 recW1 (by decide)⟩

/-- C10 (implicit): the extension allowlist is applied only to the original
multipart file name — the validation outcome is unchanged under any
replacement of the custom `filename` field — and a committed upload whose
custom field carries an arbitrary non-empty value `C` (no constraint on its
extension) stores filename `"{file_id}_{C}"`. -/
theorem custom_filename_unvalidated (hash : Bytes → Str) (cfg : Config)
    (backend : Backend) (st0 : Store) (db : Db) (env : UploadEnv)
    (req : UploadRequest) (C : Str)
    (hC : req.rawCustomFilename = some C) (hne : C ≠ []) :
    (∀ raw, validate cfg { req with rawCustomFilename := raw } = validate cfg req) ∧
    (∀ rec, (upload_file hash cfg backend st0 db env req).inserted = some rec →
      rec.filename = env.freshId ++ str "_" ++ C) := by
  constructor
  · intro raw
    rfl
  · intro rec h
    obtain ⟨d, o, ex, st1, loc, mime, tp, st2, calls,
      hval, hprobe, hup, hmime, hthumb, hins, hrec⟩ := upload_inserted_inv h
    subst hrec
    simp [make_filename, parse_custom, hC, hne]

/-- C10 witness: a committed upload with custom filename `evil.exe` against
an allowlist of `txt,png` succeeds and stores `id1_evil.exe`, whose
extension `exe` is outside the allowlist; the theorem is applied at this
input. -/
theorem custom_filename_unvalidated_witness :
    reqWCustom.rawCustomFilename = some (str "evil.exe") ∧
    ((∀ raw, validate cfgW { reqWCustom with rawCustomFilename := raw } =
        validate cfgW reqWCustom) ∧
     (∀ rec, (upload_file hashW cfgW localBackend [] [] envW1 reqWCustom).inserted
          = some rec →
        rec.filename = envW1.freshId ++ str "_" ++ str "evil.exe")) ∧
    (∃ rec, (upload_file hashW cfgW localBackend [] [] envW1 reqWCustom).inserted
        = some rec ∧
      get_file_extension rec.filename = some (str "exe") ∧
      str "exe" ∉ cfgW.allowed_extensions ∧
      (upload_file hashW cfgW localBackend [] [] envW1 reqWCustom).outcome =
        .ok ⟨str "id1", str "id1_evil.exe", str "/files/id1", 3, str "text/plain"⟩) :=
  ⟨rfl,
   custom_filename_unvalidated hashW cfgW localBackend [] [] envW1 reqWCustom
     (str "evil.exe") rfl (by decide),
   ⟨⟨str "id1", str "id1_evil.exe", str "a.txt", str "uploads/files/id1_evil.exe",
     3, str "text/plain", str "local", some (str "123"), none⟩,
    by decide, by decide, by decide, by decide⟩⟩

/-- C6: Path-normalization round trip. For every row committed by the ingest
pipeline against the backend selected by `use_s3`, stripping the stored
`file_path` by the §6 rule (drop a leading `s3://` for S3 rows, else a
leading `uploads/`) yields a key on which `storage.download` succeeds and
returns the uploaded bytes. -/
theorem path_normalization_round_trip (hash : Bytes → Str) (cfg : Config)
    (st0 : Store) (db : Db) (env : UploadEnv) (req : UploadRequest)
    (rec : File) (data : Bytes)
    (hins : (upload_file hash cfg (init_storage cfg.use_s3) st0 db env req).inserted
      = some rec)
    (hd : req.fileData = some data) :
    (init_storage cfg.use_s3).download
      (upload_file hash cfg (init_storage cfg.use_s3) st0 db env req).store
      (normalize_path rec.storage_type rec.file_path) = some data := by
  obtain ⟨d, o, ex, st1, loc, mime, tp, st2, calls,
    hval, hprobe, hup, hmime, hthumb, hins', hrec⟩ := upload_inserted_inv hins
  obtain ⟨hfd, -, -, -, -⟩ := validate_ok_inv hval
  rw [hd] at hfd
  obtain rfl : data = d := Option.some.inj hfd
  have hstore :
      (upload_file hash cfg (init_storage cfg.use_s3) st0 db env req).store = st2 := by
    rw [upload_run_commit hval hprobe hup hmime hthumb hins']
  rw [hstore]
  subst hrec
  cases hs3 : cfg.use_s3 with
  | false =>
    rw [hs3] at hup hthumb
    simp only [init_storage, Bool.false_eq_true, if_false] at hup hthumb ⊢
    obtain ⟨hst1, hloc⟩ :
        Store.set st0
          (str "uploads/" ++
            (str "files/" ++
              make_filename env.freshId (parse_custom req.rawCustomFilename) ex)) data
          = st1 ∧
        str "uploads/" ++
          (str "files/" ++
            make_filename env.freshId (parse_custom req.rawCustomFilename) ex) = loc := by
      simpa [localBackend, Prod.ext_iff] using hup
    subst hst1
    subst hloc
    have hns : normalize_path (str "local")
        (str "uploads/" ++
          (str "files/" ++
            make_filename env.freshId (parse_custom req.rawCustomFilename) ex)) =
        str "files/" ++
          make_filename env.freshId (parse_custom req.rawCustomFilename) ex := by
      unfold normalize_path
      rw [if_neg (by decide), stripPrefixOf_append]
      rfl
    have hne : str "uploads/" ++
        (str "files/" ++
          make_filename env.freshId (parse_custom req.rawCustomFilename) ex) ≠
        str "uploads/" ++ thumb_key env.freshId := by
      intro hcontra
      have hc := List.append_cancel_left hcontra
      rw [thumb_key, List.append_assoc] at hc
      exact files_key_ne_thumb_key _ _ hc
    show Store.find st2 _ = some data
    rw [hns]
    rw [thumbnail_step_local_find _ env mime env.freshId _ tp st2 calls hthumb hne]
    exact store_find_set_same st0 _ data
  | true =>
    rw [hs3] at hup hthumb
    simp only [init_storage, if_true] at hup hthumb ⊢
    obtain ⟨hst1, hloc⟩ :
        Store.set st0
          (str "files/" ++
            make_filename env.freshId (parse_custom req.rawCustomFilename) ex) data
          = st1 ∧
        str "s3://" ++
          (str "files/" ++
            make_filename env.freshId (parse_custom req.rawCustomFilename) ex) = loc := by
      simpa [s3Backend, Prod.ext_iff] using hup
    subst hst1
    subst hloc
    have hns : normalize_path (str "s3")
        (str "s3://" ++
          (str "files/" ++
            make_filename env.freshId (parse_custom req.rawCustomFilename) ex)) =
        str "files/" ++
          make_filename env.freshId (parse_custom req.rawCustomFilename) ex := by
      unfold normalize_path
      rw [if_pos rfl, stripPrefixOf_append]
      rfl
    have hne : str "files/" ++
        make_filename env.freshId (parse_custom req.rawCustomFilename) ex ≠
        thumb_key env.freshId := by
      intro hcontra
      rw [thumb_key, List.append_assoc] at hcontra
      exact files_key_ne_thumb_key _ _ hcontra
    show Store.find st2 _ = some data
    rw [hns]
    rw [thumbnail_step_s3_find _ env mime env.freshId _ tp st2 calls hthumb hne]
    exact store_find_set_same st0 _ data

/-- C6 witness: an image upload on the local backend (thumbnail rendered and
stored) commits `recWImg`; stripping its `file_path` and downloading from
the same backend returns the payload; the theorem is applied at this
input. -/
theorem path_normalization_round_trip_witness :
    (upload_file hashW cfgW (init_storage cfgW.use_s3) [] [] envWT reqWImg).inserted
      = some recWImg ∧
    (init_storage cfgW.use_s3).download
      (upload_file hashW cfgW (init_storage cfgW.use_s3) [] [] envWT reqWImg).store
      (normalize_path recWImg.storage_type recWImg.file_path) = some [1, 2, 3] :=
  ⟨by decide,
   path_normalization_round_trip hashW cfgW [] [] envWT reqWImg recWImg [1, 2, 3]
     (by decide) rfl⟩

theorem splitOnChar_of_not_mem (sep : Char) (s : Str) (h : sep ∉ s) :
    splitOnChar sep s = [s] := by
  induction s with
  | nil => rfl
  | cons c rest ih =>
    have hc : ¬ c = sep := by
      rintro rfl
      exact h (List.mem_cons_self c rest)
    have hr : sep ∉ rest := fun hh => h (List.mem_cons_of_mem c hh)
    simp only [splitOnChar, if_neg hc, ih hr]

theorem afterLastDot_eq_none (l : Str) : afterLastDot l = none ↔ '.' ∉ l := by
  induction l with
  | nil => simp [afterLastDot]
  | cons c rest ih =>
    simp only [afterLastDot, List.mem_cons]
    cases hr : afterLastDot rest with
    | some e =>
      have hdot : '.' ∈ rest := by
        by_contra hnot
        rw [ih.mpr hnot] at hr
        cases hr
      simp [hdot]
    | none =>
      have hnot : '.' ∉ rest := ih.mp hr
      by_cases hc : c = '.'
      · simp [hc]
      · have hc2 : ¬ '.' = c := fun hh => hc hh.symm
        simp [hc, hc2, hnot]

/-- C9 counterexample: on the filename `".."` the claim's clause analysis
(`extensionPerClaim`: it contains a `'.'` and is not a dotfile in the
claim's sense, so the substring after the final dot — the empty string —
should be returned) disagrees with `get_file_extension`, which returns
absent: Rust's `Path::extension` has no file name for `".."`. -/
theorem get_file_extension_dotdot_counterexample :
    ('.' ∈ str "..") ∧
    ¬((str "..").head? = some '.' ∧ '.' ∉ (str "..").tail) ∧
    extensionPerClaim (str "..") = some [] ∧
    get_file_extension (str "..") = none ∧
    get_file_extension (str "..") ≠ extensionPerClaim (str "..") := by
  decide

/-- C9 (amended): for every filename containing no `'/'` separator and
different from `".."`, `get_file_extension` returns exactly what the claim
describes (`extensionPerClaim`): absent for dotfiles — a leading dot and no
other — otherwise the lowercased substring after the final `'.'` when the
name contains one and absent when it contains none. (On the excluded
strings the function follows Rust `Path::extension`: only the final path
component is considered, and `".."` yields absent.) -/
theorem get_file_extension_char (s : Str) (hslash : '/' ∉ s)
    (hdd : s ≠ str "..") : get_file_extension s = extensionPerClaim s := by
  have hsplit : splitOnChar '/' s = [s] := splitOnChar_of_not_mem '/' s hslash
  cases s with
  | nil => rfl
  | cons c rest =>
    by_cases hc1 : (c :: rest) = ['.']
    · rw [hc1]
      decide
    · unfold get_file_extension path_file_name
      rw [hsplit]
      have hfilter : [c :: rest].filter (fun t => decide (t ≠ [] ∧ t ≠ ['.'])) =
          [c :: rest] := by
        simp [hc1]
      rw [hfilter]
      simp only [List.getLast?_singleton]
      rw [if_neg hdd]
      unfold extensionPerClaim
      simp only [List.head?_cons, List.tail_cons]
      by_cases hcdot : c = '.'
      · subst hcdot
        by_cases hdot : '.' ∈ rest
        · rw [if_neg (by simp [hdot])]
          have he : ∃ e, afterLastDot rest = some e := by
            cases hre : afterLastDot rest with
            | none => exact absurd hdot ((afterLastDot_eq_none rest).mp hre)
            | some e => exact ⟨e, rfl⟩
          obtain ⟨e, he⟩ := he
          simp [ext_after_dot, afterLastDot, he]
        · rw [if_pos ⟨rfl, hdot⟩]
          have hn : afterLastDot rest = none := (afterLastDot_eq_none rest).mpr hdot
          simp [ext_after_dot, hn]
      · rw [if_neg (by simp [hcdot])]
        cases hre : afterLastDot rest with
        | some e => simp [ext_after_dot, afterLastDot, hre, hcdot]
        | none => simp [ext_after_dot, afterLastDot, hre, hcdot]

/-- C9 witness: the amended theorem applied at `Report.V2.TXT`, a slash-free
name, where both sides evaluate to `txt`. -/
theorem get_file_extension_char_witness :
    ('/' ∉ str "Report.V2.TXT") ∧ str "Report.V2.TXT" ≠ str ".." ∧
    get_file_extension (str "Report.V2.TXT") = extensionPerClaim (str "Report.V2.TXT") :=
  ⟨by decide, by decide,
   get_file_extension_char (str "Report.V2.TXT") (by decide) (by decide)⟩
